import Mathlib

set_option autoImplicit false

namespace Projen

/-- A primitive JSON-like value stored in a compiler-options object. -/
inductive TsValue where
  | str : String → TsValue
  | bool : Bool → TsValue
  | strs : List String → TsValue
deriving DecidableEq, Repr

/-- A JavaScript object holding compiler options: an ordered list of
key-value pairs; lookup returns the first occurrence of a key. -/
abbrev ObjMap := List (String × TsValue)

/-- JavaScript object spread `\x7b...a, ...b\x7d`: the keys of `a` in place, each
overridden by the value from `b` when `b` also has the key, followed by the
keys only `b` has. -/
def spread (a b : ObjMap) : ObjMap :=
  a.map (fun p =>
    match b.lookup p.1 with
    | some v => (p.1, v)
    | none => p)
  ++ b.filter (fun q => (a.lookup q.1).isNone)

/-- JavaScript object-spread treatment of one optional field: the later
object's value when that object carries the field, otherwise the earlier
object's value. -/
def oOr {α : Type} (a b : Option α) : Option α :=
  match a with
  | some x => some x
  | none => b

/-- Whether an ignore-file pattern entry is an include (allow-list) entry or
an exclude entry. -/
inductive PatternKind where
  | includePat
  | excludePat
deriving DecidableEq, Repr

/-- An ordered ignore-style pattern list; entries are appended in call order
(spec 4.1). -/
abbrev PatternList := List (PatternKind × String)

/-- The object held by the JSON emitter of a tsconfig file: compilerOptions,
include and exclude arrays (source lines 620-624). `include` is spelled
`include_` because Lean reserves the word. -/
structure TsconfigObj where
  compilerOptions : ObjMap
  include_ : List String
  exclude : List String
deriving DecidableEq, Repr

/-- Modelled from the spec: the Structured File Emitter (`JsonFile`) holding
a tsconfig-shaped document. `JsonFile(project, fileName, \x7b obj \x7d)` registers
with the project an emitter that renders `obj` to `fileName` (spec 4.4); only
the registration and the held state are modelled. -/
structure JsonFile where
  path : String
  obj : TsconfigObj
deriving DecidableEq, Repr

/-- Modelled from the spec: the shared mutable project state owned by the
missing NodeProject superclass (spec section 3): a script registry (4.2), the
VCS-ignore pattern list and the optional package-ignore pattern list (4.1),
the development dependency set (4.3), the registered JSON emitters (4.4) and
the manifest's `types` field (section 6). Registries start empty; whatever
the NodeProject constructor itself registers is outside the model. -/
structure ProjState where
  scripts : String → List String
  gitignore : PatternList
  npmignore : Option PatternList
  devDependencies : List (String × String)
  files : List JsonFile
  manifestTypes : Option String

/-- Modelled from the spec (4.2): appending commands to a named script; a
script that does not exist yet is created with exactly these commands. The
`addScript`, `addScriptCommand` and `add*Command` helpers of the missing
NodeProject are all modelled by this single appending operation. -/
def ProjState.addScript (st : ProjState) (name : String) (cmds : List String) : ProjState :=
  { st with scripts := fun m => if m == name then st.scripts m ++ cmds else st.scripts m }

/-- Appending an exclude pattern to the VCS-ignore list (spec 4.1). -/
def ProjState.gitExclude (st : ProjState) (p : String) : ProjState :=
  { st with gitignore := st.gitignore ++ [(PatternKind.excludePat, p)] }

/-- Appending an include pattern to the VCS-ignore list (spec 4.1). -/
def ProjState.gitInclude (st : ProjState) (p : String) : ProjState :=
  { st with gitignore := st.gitignore ++ [(PatternKind.includePat, p)] }

/-- Appending an exclude pattern to the package-ignore list when it exists;
the optional-chaining call `npmignore?.exclude(p)` is a no-op otherwise. -/
def ProjState.npmExclude (st : ProjState) (p : String) : ProjState :=
  { st with npmignore := st.npmignore.map (fun l => l ++ [(PatternKind.excludePat, p)]) }

/-- Appending an include pattern to the package-ignore list when it exists;
the optional-chaining call `npmignore?.include(p)` is a no-op otherwise. -/
def ProjState.npmInclude (st : ProjState) (p : String) : ProjState :=
  { st with npmignore := st.npmignore.map (fun l => l ++ [(PatternKind.includePat, p)]) }

/-- Modelled from the spec (4.3): registering one dependency, overwriting the
constraint when the package is already present, appending it otherwise. -/
def addDep (deps : List (String × String)) (k v : String) : List (String × String) :=
  if deps.any (fun p => p.1 == k) then
    deps.map (fun p => if p.1 == k then (k, v) else p)
  else deps ++ [(k, v)]

/-- Options of the TypescriptConfig component (source lines 300-322). The
`compilerOptions` field is required in the source interface; the others are
optional. -/
structure TypescriptConfigOptions where
  fileName : Option String := none
  include_ : Option (List String) := none
  exclude : Option (List String) := none
  compilerOptions : ObjMap
deriving DecidableEq, Repr

/-- The TypescriptConfig component (source lines 603-629): the resolved
fields and the JSON emitter it owns. -/
structure TypescriptConfig where
  compilerOptions : ObjMap
  include_ : List String
  exclude : List String
  fileName : String
  file : JsonFile
deriving DecidableEq, Repr

/-- The value part of the TypescriptConfig constructor (source lines
610-625): defaulted fileName, include and exclude, the caller's
compilerOptions taken as given, and the held emitter object. -/
def TypescriptConfig.make (options : TypescriptConfigOptions) : TypescriptConfig :=
  let fileName := options.fileName.getD "tsconfig.json"
  let incl := options.include_.getD ["**/*.ts"]
  let excl := options.exclude.getD ["node_modules"]
  { compilerOptions := options.compilerOptions
    include_ := incl
    exclude := excl
    fileName := fileName
    file :=
      { path := fileName
        obj :=
          { compilerOptions := options.compilerOptions
            include_ := incl
            exclude := excl } } }

/-- The effect part of the TypescriptConfig constructor on shared project
state: registering the JsonFile emitter (source line 619) and excluding the
emitted file from the package-ignore list when that list exists (source line
627). -/
def TypescriptConfig.applyToProject (options : TypescriptConfigOptions) (st : ProjState) : ProjState :=
  let st1 := { st with files := st.files ++ [(TypescriptConfig.make options).file] }
  st1.npmExclude ("/" ++ options.fileName.getD "tsconfig.json")

/-- Options of the TypeScript project (source lines 12-93 together with the
NodeProjectOptions fields the constructor reads). The fields
`allowLibraryDependencies` and `releaseWorkflow` are consumed only by the
missing NodeProject superclass and are carried for the app-preset option
merge. `minNodeVersion` models `this.minNodeVersion` read at source line 278.
`npmignoreEnabled` is modelled from the spec: it decides whether the optional
package-ignore pattern list exists at all (spec section 3). -/
structure TypeScriptProjectOptions where
  srcdir : Option String := none
  libdir : Option String := none
  testdir : Option String := none
  entrypoint : Option String := none
  entrypointTypes : Option String := none
  jest : Option Bool := none
  eslint : Option Bool := none
  typescriptVersion : Option String := none
  docgen : Option Bool := none
  docsDirectory : Option String := none
  tsconfig : Option TypescriptConfigOptions := none
  disableTsconfig : Option Bool := none
  compileBeforeTest : Option Bool := none
  sampleCode : Option Bool := none
  package : Option Bool := none
  allowLibraryDependencies : Option Bool := none
  releaseWorkflow : Option Bool := none
  minNodeVersion : Option String := none
  npmignoreEnabled : Option Bool := none
deriving DecidableEq, Repr

/-- The hard-coded compiler options (source lines 176-197). -/
def defaultCompilerOptions : ObjMap :=
  [("alwaysStrict", TsValue.bool true),
   ("declaration", TsValue.bool true),
   ("experimentalDecorators", TsValue.bool true),
   ("inlineSourceMap", TsValue.bool true),
   ("inlineSources", TsValue.bool true),
   ("lib", TsValue.strs ["es2018"]),
   ("module", TsValue.str "CommonJS"),
   ("noEmitOnError", TsValue.bool false),
   ("noFallthroughCasesInSwitch", TsValue.bool true),
   ("noImplicitAny", TsValue.bool true),
   ("noImplicitReturns", TsValue.bool true),
   ("noImplicitThis", TsValue.bool true),
   ("noUnusedLocals", TsValue.bool true),
   ("noUnusedParameters", TsValue.bool true),
   ("resolveJsonModule", TsValue.bool true),
   ("strict", TsValue.bool true),
   ("strictNullChecks", TsValue.bool true),
   ("strictPropertyInitialization", TsValue.bool true),
   ("stripInternal", TsValue.bool true),
   ("target", TsValue.str "ES2018")]

/-- Modelled Node posix `path.dirname` for relative paths without trailing
slashes: everything before the last slash, or `.` when there is no slash. -/
def jsDirname (p : String) : String :=
  let parts := p.data.splitOn '/'
  if parts.length ≤ 1 then "." else String.mk (List.intercalate ['/'] parts.dropLast)

/-- Stripping a trailing extension from a path basename the way Node
`path.basename(p, ext)` does: removed only when the basename ends with the
extension and is not the extension itself. -/
def stripExt (base ext : List Char) : List Char :=
  if base ≠ ext ∧ base.reverse.take ext.length = ext.reverse then
    (base.reverse.drop ext.length).reverse
  else base

/-- Modelled Node posix `path.basename` with an extension argument, for paths
without trailing slashes: the part after the last slash, extension
stripped. -/
def jsBasename (p : String) (ext : String) : String :=
  String.mk (stripExt ((p.data.splitOn '/').getLastD []) ext.data)

/-- Modelled Node posix `path.join` restricted to the two-segment calls made
at source line 173, where no `..` or duplicate-slash normalization can arise:
joining with a slash, an empty or `.` directory part collapsing to the base
part. -/
def jsPathJoin (a b : String) : String :=
  if a = "" then b
  else if b = "" then a
  else if a = "." then b
  else a ++ "/" ++ b

/-- Global replacement of backslashes by forward slashes, the
`.replace(/\\/g, '/')` at source line 173. -/
def replaceBackslashes (l : List Char) : List Char :=
  l.map (fun c => if c = '\\' then '/' else c)

/-- The derived `types` path of source line 173: join the dirname of the
entrypoint with its basename minus the `.js` extension, normalize
backslashes, append `.d.ts`. -/
def deriveEntrypointTypes (entrypoint : String) : String :=
  String.mk (replaceBackslashes (jsPathJoin (jsDirname entrypoint) (jsBasename entrypoint ".js")).data)
    ++ ".d.ts"

/-- JavaScript truthiness of an optional string: `undefined` and the empty
string are falsy. This is the guard test applied to `options.entrypointTypes`
at source line 172. -/
def jsTruthyStrOpt : Option String → Bool
  | some s => s != ""
  | none => false

/-- Modelled from the spec: the eslint component is an external collaborator
(spec section 1); only the configuration handed to it by the constructor call
at source lines 270-273 is recorded. -/
structure EslintModel where
  tsconfigPath : String
  dirs : List String
deriving DecidableEq, Repr

/-- Modelled from the spec: the jest component is an external collaborator
(spec section 1); only the TypescriptConfig passed to it at source line 261
is recorded. -/
structure JestModel where
  typescript : TypescriptConfig
deriving DecidableEq, Repr

/-- The constructed TypeScript project: the shared registries after
construction plus the public fields of the class (source lines 99-119), and
flags recording which optional child components were instantiated. -/
structure TypeScriptProject where
  state : ProjState
  srcdir : String
  libdir : String
  testdir : String
  docsDirectory : String
  entrypoint : String
  docgen : Option Bool
  tsconfig : Option TypescriptConfig
  jest : Option JestModel
  eslint : Option EslintModel
  sampleCode : Bool
  typedoc : Bool

/-- The options passed to the jest-scoped TypescriptConfig (source lines
238-248): a fixed alternate filename, the source and test glob patterns, a
node_modules-only exclude list, and the shared hard-coded compiler options
with no rootDir or outDir. -/
def jestTsconfigOptionsOf (srcdir testdir : String) : TypescriptConfigOptions :=
  { fileName := some "tsconfig.jest.json"
    include_ := some [srcdir ++ "/**/*.ts", testdir ++ "/**/*.ts"]
    exclude := some ["node_modules"]
    compilerOptions := defaultCompilerOptions }

/-- The object-literal spread building the main tsconfig options (source
lines 200-212): caller-supplied optional fields override the literal
key-by-key at the top level, and `compilerOptions`, a required field of the
caller record, always overrides wholesale. -/
def spreadConfigOptions (base t : TypescriptConfigOptions) : TypescriptConfigOptions :=
  { fileName := oOr t.fileName base.fileName
    include_ := oOr t.include_ base.include_
    exclude := oOr t.exclude base.exclude
    compilerOptions := t.compilerOptions }

/-- The TypeScriptProject constructor (source lines 121-289) as a state
transformation. `runScriptCommand` and `packageManager` stand for the
NodeProject-provided strings of the same names (modelled from the spec as
opaque parameters). Start-menu entries and the internals of the jest, eslint
and typedoc child components are external collaborators (spec section 1) and
contribute nothing to the modelled registries. -/
def mkTypeScriptProject (options : TypeScriptProjectOptions)
    (runScriptCommand packageManager : String) : TypeScriptProject :=
  -- super(options): modelled from the spec; fresh registries, entrypoint
  -- defaulted per the documentation of entrypointTypes (source line 82)
  let entrypoint := options.entrypoint.getD "lib/index.js"
  let st : ProjState :=
    { scripts := fun _ => []
      gitignore := []
      npmignore := if options.npmignoreEnabled.getD true then some [] else none
      devDependencies := []
      files := []
      manifestTypes := none }
  let srcdir := options.srcdir.getD "src"
  let libdir := options.libdir.getD "lib"
  let testdir := options.testdir.getD "test"
  let st := st.addScript "compile" ["tsc"]
  let st := st.addScript "watch" ["tsc -w"]
  let compileBeforeTest := options.compileBeforeTest.getD false
  let st :=
    if compileBeforeTest then
      st.addScript "build" [runScriptCommand ++ " compile", runScriptCommand ++ " test"]
    else
      st.addScript "build" [runScriptCommand ++ " test", runScriptCommand ++ " compile"]
  let st :=
    if options.package.getD true then
      (st.addScript "package"
          ["rm -fr dist", "mkdir -p dist/js", packageManager ++ " pack", "mv *.tgz dist/js/"]).addScript
        "build" [runScriptCommand ++ " package"]
    else st
  let st :=
    if jsTruthyStrOpt options.entrypointTypes || entrypoint != "" then
      { st with manifestTypes := some (options.entrypointTypes.getD (deriveEntrypointTypes entrypoint)) }
    else st
  let mainTsconfigOptions : TypescriptConfigOptions :=
    let base : TypescriptConfigOptions :=
      { include_ := some [srcdir ++ "/**/*.ts"]
        exclude := some ["node_modules", libdir]
        compilerOptions :=
          spread [("rootDir", TsValue.str srcdir), ("outDir", TsValue.str libdir)]
            defaultCompilerOptions }
    match options.tsconfig with
    | none => base
    | some t => spreadConfigOptions base t
  let disableTsconfig := options.disableTsconfig.getD false
  let tsconfig := if disableTsconfig then none else some (TypescriptConfig.make mainTsconfigOptions)
  let st := if disableTsconfig then st else TypescriptConfig.applyToProject mainTsconfigOptions st
  let st := st.gitExclude ("/" ++ libdir)
  let st := st.npmInclude ("/" ++ libdir)
  let st := st.gitInclude ("/" ++ srcdir)
  let st := st.npmExclude ("/" ++ srcdir)
  let st := st.npmInclude ("/" ++ libdir ++ "/**/*.js")
  let st := st.npmInclude ("/" ++ libdir ++ "/**/*.d.ts")
  let st := st.gitExclude "/dist"
  let st := st.npmExclude "dist"
  let st := st.npmExclude "/tsconfig.json"
  let st := st.npmExclude "/.github"
  let st := st.npmExclude "/.vscode"
  let st := st.npmExclude "/.projenrc.js"
  let jestEnabled := options.jest.getD true
  let jestTsconfigOptions := jestTsconfigOptionsOf srcdir testdir
  let jestTsconfig := TypescriptConfig.make jestTsconfigOptions
  let st := if jestEnabled then TypescriptConfig.applyToProject jestTsconfigOptions st else st
  let eslintTsConfig := if jestEnabled then jestTsconfig.fileName else "tsconfig.json"
  let st :=
    if jestEnabled && !compileBeforeTest then st.addScript "test" ["rm -fr " ++ libdir ++ "/"]
    else st
  let jest := if jestEnabled then some ({ typescript := jestTsconfig } : JestModel) else none
  let st := if jestEnabled then (st.gitInclude ("/" ++ testdir)).npmExclude ("/" ++ testdir) else st
  let eslint :=
    if options.eslint.getD true then
      some ({ tsconfigPath := "./" ++ eslintTsConfig, dirs := [srcdir, testdir] } : EslintModel)
    else none
  let deps1 := addDep st.devDependencies "typescript" (options.typescriptVersion.getD "^3.9.5")
  let deps2 := addDep deps1 "@types/node" ("^" ++ options.minNodeVersion.getD "10.17.0")
  let st := { st with devDependencies := deps2 }
  { state := st
    srcdir := srcdir
    libdir := libdir
    testdir := testdir
    docsDirectory := options.docsDirectory.getD "docs/"
    entrypoint := entrypoint
    docgen := options.docgen
    tsconfig := tsconfig
    jest := jest
    eslint := eslint
    sampleCode := options.sampleCode.getD true
    typedoc := options.docgen.getD false }

/-- The TypeScriptAppProject constructor (source lines 681-691): the super
call spreading the caller options over the four preset defaults. -/
def mkTypeScriptAppProject (options : TypeScriptProjectOptions)
    (runScriptCommand packageManager : String) : TypeScriptProject :=
  mkTypeScriptProject
    { options with
      allowLibraryDependencies := oOr options.allowLibraryDependencies (some false)
      releaseWorkflow := oOr options.releaseWorkflow (some false)
      entrypoint := oOr options.entrypoint (some "")
      package := oOr options.package (some false) }
    runScriptCommand packageManager

/-- The app-preset defaults exactly as the claim words them: entrypoint
empty, packaging disabled, library dependencies disallowed, release workflow
disabled; every other option left unset. -/
def appPresetDefaults : TypeScriptProjectOptions :=
  { entrypoint := some ""
    package := some false
    allowLibraryDependencies := some false
    releaseWorkflow := some false }

/-- Shallow key-by-key override of one option bag by another, exactly as the
claim words it: a key the caller set wins over the preset default, key by
key, with no deeper merging. -/
def shallowOverrideOptions (base o : TypeScriptProjectOptions) : TypeScriptProjectOptions :=
  { srcdir := oOr o.srcdir base.srcdir
    libdir := oOr o.libdir base.libdir
    testdir := oOr o.testdir base.testdir
    entrypoint := oOr o.entrypoint base.entrypoint
    entrypointTypes := oOr o.entrypointTypes base.entrypointTypes
    jest := oOr o.jest base.jest
    eslint := oOr o.eslint base.eslint
    typescriptVersion := oOr o.typescriptVersion base.typescriptVersion
    docgen := oOr o.docgen base.docgen
    docsDirectory := oOr o.docsDirectory base.docsDirectory
    tsconfig := oOr o.tsconfig base.tsconfig
    disableTsconfig := oOr o.disableTsconfig base.disableTsconfig
    compileBeforeTest := oOr o.compileBeforeTest base.compileBeforeTest
    sampleCode := oOr o.sampleCode base.sampleCode
    package := oOr o.package base.package
    allowLibraryDependencies := oOr o.allowLibraryDependencies base.allowLibraryDependencies
    releaseWorkflow := oOr o.releaseWorkflow base.releaseWorkflow
    minNodeVersion := oOr o.minNodeVersion base.minNodeVersion
    npmignoreEnabled := oOr o.npmignoreEnabled base.npmignoreEnabled }

/-- The layered compiler-option merge exactly as claim C3 words it: the
hard-coded defaults, overridden key-by-key by the computed rootDir and
outDir, overridden key-by-key by whatever compilerOptions the caller supplied
inside the tsconfig option bag. -/
def claimLayeredCompilerOptions (srcdir libdir : String)
    (callerTsconfig : Option TypescriptConfigOptions) : ObjMap :=
  spread
    (spread defaultCompilerOptions
      [("rootDir", TsValue.str srcdir), ("outDir", TsValue.str libdir)])
    ((callerTsconfig.map TypescriptConfigOptions.compilerOptions).getD [])

/-- A file-system snapshot for the sample-code component: the directories
that exist, a directory-listing map, and the writes performed so far (path
and content, in order). Creating a directory appends to `dirs`; the listing
map records only the pre-existing state, which is all the guards consult. -/
structure FsState where
  dirs : List String
  entries : String → List String
  writes : List (String × String)

/-- fs-extra `pathExistsSync` on the snapshot. -/
def FsState.pathExists (fs : FsState) (p : String) : Bool := fs.dirs.contains p

/-- JavaScript truthiness of an array value: every array object is truthy,
the empty array included. This is what the guards at source lines 643 and
659 test on the filtered directory listing. -/
def jsArrayTruthy (_ : List String) : Bool := true

/-- The sample source lines (source lines 647-653). -/
def srcCodeLines : List String :=
  ["export class Hello \x7b",
   "  public sayHello() \x7b",
   "    return 'hello, world!'",
   "  \x7d",
   "\x7d"]

/-- The sample test lines (source lines 663-669). -/
def testCodeLines : List String :=
  ["import \x7b Hello \x7d from '../src'",
   "",
   "test('hello', () => \x7b",
   "  expect(new Hello().sayHello()).toBe('hello, world!');",
   "\x7d);"]

/-- The SampleCode synthesize method (source lines 641-673) over the
file-system model: guard on the source directory, create it and write the
sample source, guard on the test directory, create it and write the sample
test. -/
def sampleCodeSynthesize (srcdirName testdirName outdir : String) (fs : FsState) : FsState :=
  let srcdir := jsPathJoin outdir srcdirName
  if fs.pathExists srcdir && jsArrayTruthy ((fs.entries srcdir).filter (fun x => x.endsWith ".ts")) then
    fs
  else
    let fs1 : FsState :=
      { fs with
        dirs := fs.dirs ++ [srcdir]
        writes := fs.writes ++ [(jsPathJoin srcdir "index.ts", String.intercalate "\n" srcCodeLines)] }
    let testdir := jsPathJoin outdir testdirName
    if fs1.pathExists testdir && jsArrayTruthy ((fs1.entries testdir).filter (fun x => x.endsWith ".ts")) then
      fs1
    else
      { fs1 with
        dirs := fs1.dirs ++ [testdir]
        writes := fs1.writes ++ [(jsPathJoin testdir "hello.test.ts", String.intercalate "\n" testCodeLines)] }

/-- The all-defaults option bag, used by the concrete instances below. -/
def defaultOptions : TypeScriptProjectOptions := {}

/-- Options that disable the main tsconfig while leaving every toggle at its
default; jest in particular stays enabled. -/
def noTsconfigOptions : TypeScriptProjectOptions := { disableTsconfig := some true }

/-- Options carrying a caller tsconfig override whose compilerOptions bag
holds the single key `allowJs`. -/
def allowJsOptions : TypeScriptProjectOptions :=
  { tsconfig := some { compilerOptions := [("allowJs", TsValue.bool true)] } }

/-- Options supplying an empty-string entrypointTypes together with an empty
entrypoint. -/
def emptyTypesOptions : TypeScriptProjectOptions :=
  { entrypointTypes := some "", entrypoint := some "" }

/-- A file-system snapshot in which the source directory `out/src` already
exists but holds no files at all, and nothing has been written. -/
def fsWithEmptySrcDir : FsState :=
  { dirs := ["out/src"], entries := fun _ => [], writes := [] }

/-- A file-system snapshot in which only the test directory `out/test`
already exists, and nothing has been written. -/
def fsWithTestDirOnly : FsState :=
  { dirs := ["out/test"], entries := fun _ => [], writes := [] }

/-- Options naming the entrypoint explicitly at its usual default value. -/
def explicitEntrypointOptions : TypeScriptProjectOptions :=
  { entrypoint := some "lib/index.js" }

/-- A bare project state whose package-ignore list exists and is empty. -/
def emptyStateWithNpm : ProjState :=
  { scripts := fun _ => []
    gitignore := []
    npmignore := some []
    devDependencies := []
    files := []
    manifestTypes := none }

@[simp] theorem addScript_scripts (st : ProjState) (n c m) :
    (st.addScript n c).scripts m = if m == n then st.scripts m ++ c else st.scripts m := rfl

@[simp] theorem addScript_gitignore (st : ProjState) (n c) :
    (st.addScript n c).gitignore = st.gitignore := rfl

@[simp] theorem addScript_npmignore (st : ProjState) (n c) :
    (st.addScript n c).npmignore = st.npmignore := rfl

@[simp] theorem addScript_files (st : ProjState) (n c) :
    (st.addScript n c).files = st.files := rfl

@[simp] theorem addScript_manifestTypes (st : ProjState) (n c) :
    (st.addScript n c).manifestTypes = st.manifestTypes := rfl

@[simp] theorem addScript_devDependencies (st : ProjState) (n c) :
    (st.addScript n c).devDependencies = st.devDependencies := rfl

@[simp] theorem gitExclude_scripts (st : ProjState) (p) :
    (st.gitExclude p).scripts = st.scripts := rfl

@[simp] theorem gitExclude_gitignore (st : ProjState) (p) :
    (st.gitExclude p).gitignore = st.gitignore ++ [(PatternKind.excludePat, p)] := rfl

@[simp] theorem gitExclude_npmignore (st : ProjState) (p) :
    (st.gitExclude p).npmignore = st.npmignore := rfl

@[simp] theorem gitExclude_files (st : ProjState) (p) :
    (st.gitExclude p).files = st.files := rfl

@[simp] theorem gitExclude_manifestTypes (st : ProjState) (p) :
    (st.gitExclude p).manifestTypes = st.manifestTypes := rfl

@[simp] theorem gitExclude_devDependencies (st : ProjState) (p) :
    (st.gitExclude p).devDependencies = st.devDependencies := rfl

@[simp] theorem gitInclude_scripts (st : ProjState) (p) :
    (st.gitInclude p).scripts = st.scripts := rfl

@[simp] theorem gitInclude_gitignore (st : ProjState) (p) :
    (st.gitInclude p).gitignore = st.gitignore ++ [(PatternKind.includePat, p)] := rfl

@[simp] theorem gitInclude_npmignore (st : ProjState) (p) :
    (st.gitInclude p).npmignore = st.npmignore := rfl

@[simp] theorem gitInclude_files (st : ProjState) (p) :
    (st.gitInclude p).files = st.files := rfl

@[simp] theorem gitInclude_manifestTypes (st : ProjState) (p) :
    (st.gitInclude p).manifestTypes = st.manifestTypes := rfl

@[simp] theorem gitInclude_devDependencies (st : ProjState) (p) :
    (st.gitInclude p).devDependencies = st.devDependencies := rfl

@[simp] theorem npmExclude_scripts (st : ProjState) (p) :
    (st.npmExclude p).scripts = st.scripts := rfl

@[simp] theorem npmExclude_gitignore (st : ProjState) (p) :
    (st.npmExclude p).gitignore = st.gitignore := rfl

@[simp] theorem npmExclude_npmignore (st : ProjState) (p) :
    (st.npmExclude p).npmignore
      = st.npmignore.map (fun l => l ++ [(PatternKind.excludePat, p)]) := rfl

@[simp] theorem npmExclude_files (st : ProjState) (p) :
    (st.npmExclude p).files = st.files := rfl

@[simp] theorem npmExclude_manifestTypes (st : ProjState) (p) :
    (st.npmExclude p).manifestTypes = st.manifestTypes := rfl

@[simp] theorem npmExclude_devDependencies (st : ProjState) (p) :
    (st.npmExclude p).devDependencies = st.devDependencies := rfl

@[simp] theorem npmInclude_scripts (st : ProjState) (p) :
    (st.npmInclude p).scripts = st.scripts := rfl

@[simp] theorem npmInclude_gitignore (st : ProjState) (p) :
    (st.npmInclude p).gitignore = st.gitignore := rfl

@[simp] theorem npmInclude_npmignore (st : ProjState) (p) :
    (st.npmInclude p).npmignore
      = st.npmignore.map (fun l => l ++ [(PatternKind.includePat, p)]) := rfl

@[simp] theorem npmInclude_files (st : ProjState) (p) :
    (st.npmInclude p).files = st.files := rfl

@[simp] theorem npmInclude_manifestTypes (st : ProjState) (p) :
    (st.npmInclude p).manifestTypes = st.manifestTypes := rfl

@[simp] theorem npmInclude_devDependencies (st : ProjState) (p) :
    (st.npmInclude p).devDependencies = st.devDependencies := rfl

@[simp] theorem applyToProject_scripts (o : TypescriptConfigOptions) (st : ProjState) :
    (TypescriptConfig.applyToProject o st).scripts = st.scripts := rfl

@[simp] theorem applyToProject_gitignore (o : TypescriptConfigOptions) (st : ProjState) :
    (TypescriptConfig.applyToProject o st).gitignore = st.gitignore := rfl

@[simp] theorem applyToProject_npmignore (o : TypescriptConfigOptions) (st : ProjState) :
    (TypescriptConfig.applyToProject o st).npmignore
      = st.npmignore.map
          (fun l => l ++ [(PatternKind.excludePat, "/" ++ o.fileName.getD "tsconfig.json")]) := rfl

@[simp] theorem applyToProject_files (o : TypescriptConfigOptions) (st : ProjState) :
    (TypescriptConfig.applyToProject o st).files
      = st.files ++ [(TypescriptConfig.make o).file] := rfl

@[simp] theorem applyToProject_manifestTypes (o : TypescriptConfigOptions) (st : ProjState) :
    (TypescriptConfig.applyToProject o st).manifestTypes = st.manifestTypes := rfl

@[simp] theorem applyToProject_devDependencies (o : TypescriptConfigOptions) (st : ProjState) :
    (TypescriptConfig.applyToProject o st).devDependencies = st.devDependencies := rfl

@[simp] theorem oOr_some {α : Type} (x : α) (b : Option α) : oOr (some x) b = some x := rfl

@[simp] theorem oOr_none {α : Type} (b : Option α) : oOr none b = b := rfl

@[simp] theorem oOr_none_right {α : Type} (a : Option α) : oOr a none = a := by
  cases a <;> rfl

theorem lookup_append (l m : List (String × TsValue)) (k : String) :
    (l ++ m).lookup k = oOr (l.lookup k) (m.lookup k) := by
  induction l with
  | nil => simp [List.lookup]
  | cons p l ih =>
    obtain ⟨k1, v1⟩ := p
    by_cases h : k = k1
    · subst h; simp [List.lookup]
    · have hb : (k == k1) = false := by simp [h]
      simp [List.lookup, hb, ih]

theorem lookup_override (a b : ObjMap) (k : String) :
    (a.map (fun p =>
      match b.lookup p.1 with
      | some v => (p.1, v)
      | none => p)).lookup k
      = (a.lookup k).map (fun v => (b.lookup k).getD v) := by
  induction a with
  | nil => simp [List.lookup]
  | cons p a ih =>
    obtain ⟨k1, v1⟩ := p
    by_cases h : k = k1
    · subst h
      cases hb : b.lookup k <;> simp [List.lookup, hb]
    · have hb : (k == k1) = false := by simp [h]
      cases hlk : b.lookup k1 <;> simp [List.lookup, hb, hlk, ih]

theorem lookup_filter_fresh (b : ObjMap) (a : ObjMap) (k : String) (ha : a.lookup k = none) :
    (b.filter (fun q => (a.lookup q.1).isNone)).lookup k = b.lookup k := by
  induction b with
  | nil => simp
  | cons q b ih =>
    obtain ⟨k1, w1⟩ := q
    by_cases h : k = k1
    · subst h
      simp [List.filter, ha, List.lookup]
    · have hb : (k == k1) = false := by simp [h]
      cases hk1 : (a.lookup k1).isNone <;> simp [List.filter, hk1, List.lookup, hb, ih]

theorem spread_lookup (a b : ObjMap) (k : String) :
    (spread a b).lookup k = oOr (b.lookup k) (a.lookup k) := by
  unfold spread
  rw [lookup_append, lookup_override]
  cases ha : a.lookup k with
  | some v => cases hb : b.lookup k <;> simp [hb]
  | none => rw [lookup_filter_fresh b a k ha]; cases hb : b.lookup k <;> simp [hb]



theorem splitOn_slash_concat (d b : List Char) (hb : '/' ∉ b) :
    (d ++ '/' :: b).splitOn '/' = d.splitOn '/' ++ [b] := by
  induction d with
  | nil =>
    simp only [List.nil_append, List.splitOn, List.splitOnP_cons]
    have hsingle : List.splitOnP (fun x => x == '/') b = [b] := by
      apply List.splitOnP_eq_single
      intro x hx hp
      exact hb (by rw [beq_iff_eq] at hp; rw [← hp]; exact hx)
    simp [hsingle]
  | cons c cs ih =>
    by_cases hc : c = '/'
    · subst hc
      simp only [List.cons_append, List.splitOn, List.splitOnP_cons] at *
      simp [ih]
    · have hcb : (c == '/') = false := by simp [hc]
      simp only [List.cons_append, List.splitOn, List.splitOnP_cons, hcb] at *
      rw [ih]
      have hne := List.splitOnP_ne_nil (fun a => a == '/') cs
      cases hsp : List.splitOnP (fun a => a == '/') cs with
      | nil => exact absurd hsp hne
      | cons h t => simp

theorem stripExt_concat (b ext : List Char) (hb : b ≠ []) :
    stripExt (b ++ ext) ext = b := by
  unfold stripExt
  rw [if_pos]
  · rw [List.reverse_append]
    rw [List.drop_left' (by simp)]
    exact List.reverse_reverse b
  · constructor
    · intro h
      have := congrArg List.length h
      simp at this
      exact hb this
    · rw [List.reverse_append]
      rw [List.take_left' (by simp)]

theorem replaceBackslashes_id (l : List Char) (h : '\\' ∉ l) :
    replaceBackslashes l = l := by
  unfold replaceBackslashes
  induction l with
  | nil => rfl
  | cons c cs ih =>
    simp only [List.mem_cons, not_or] at h
    simp [Ne.symm h.1, ih h.2]

theorem string_data_ne_nil (s : String) (h : s ≠ "") : s.data ≠ [] := by
  intro hd
  apply h
  cases s
  simp at hd
  simp [hd]

theorem deriveEntrypointTypes_spec (d b : String)
    (hd1 : d ≠ "") (hd2 : d ≠ ".") (hb : b ≠ "")
    (hslash : '/' ∉ b.data) (hbs1 : '\\' ∉ d.data) (hbs2 : '\\' ∉ b.data) :
    deriveEntrypointTypes (d ++ "/" ++ b ++ ".js") = d ++ "/" ++ b ++ ".d.ts" := by
  have hdata : (d ++ "/" ++ b ++ ".js").data = d.data ++ '/' :: (b.data ++ ['.', 'j', 's']) := by
    simp [String.data_append]
  have hsplit : (d ++ "/" ++ b ++ ".js").data.splitOn '/'
      = d.data.splitOn '/' ++ [b.data ++ ['.', 'j', 's']] := by
    rw [hdata]
    exact splitOn_slash_concat _ _ (by simp [hslash])
  have hdir : jsDirname (d ++ "/" ++ b ++ ".js") = d := by
    unfold jsDirname
    rw [hsplit]
    have hlen : (d.data.splitOn '/' ++ [b.data ++ ['.', 'j', 's']]).length
        = (d.data.splitOn '/').length + 1 := by simp
    rw [if_neg]
    · rw [List.dropLast_concat]
      have : List.intercalate ['/'] (d.data.splitOn '/') = d.data :=
        List.intercalate_splitOn d.data '/'
      rw [this]
    · rw [hlen]
      have := List.splitOnP_ne_nil (fun a => a == '/') d.data
      have hpos : 0 < (d.data.splitOn '/').length := List.length_pos.mpr this
      omega
  have hbase : jsBasename (d ++ "/" ++ b ++ ".js") ".js" = b := by
    unfold jsBasename
    rw [hsplit]
    rw [List.getLastD_concat]
    have hext : (".js" : String).data = ['.', 'j', 's'] := rfl
    rw [hext]
    rw [stripExt_concat _ _ (string_data_ne_nil b hb)]
  unfold deriveEntrypointTypes
  rw [hdir, hbase]
  have hjoin : jsPathJoin d b = d ++ "/" ++ b := by
    unfold jsPathJoin
    rw [if_neg hd1, if_neg hb, if_neg hd2]
  rw [hjoin]
  rw [replaceBackslashes_id _ (by simp [String.data_append, hbs1, hbs2])]



/-- C5: after every construction, the compiled-output directory is excluded
in the VCS-ignore list and included in the package-ignore list when that
list exists, while the source directory is included in the VCS-ignore list
and excluded from the package-ignore list. -/
theorem libdir_ignore_registration (opts : TypeScriptProjectOptions) (rsc pm : String) :
    ((PatternKind.excludePat, "/" ++ (mkTypeScriptProject opts rsc pm).libdir)
        ∈ (mkTypeScriptProject opts rsc pm).state.gitignore
      ∧ (PatternKind.includePat, "/" ++ (mkTypeScriptProject opts rsc pm).srcdir)
        ∈ (mkTypeScriptProject opts rsc pm).state.gitignore)
    ∧ (∀ l, (mkTypeScriptProject opts rsc pm).state.npmignore = some l →
        (PatternKind.includePat, "/" ++ (mkTypeScriptProject opts rsc pm).libdir) ∈ l
        ∧ (PatternKind.excludePat, "/" ++ (mkTypeScriptProject opts rsc pm).srcdir) ∈ l) := by
  refine ⟨⟨?_, ?_⟩, ?_⟩
  · simp only [mkTypeScriptProject]
    simp [apply_ite ProjState.gitignore]
    split <;> simp
  · simp only [mkTypeScriptProject]
    simp [apply_ite ProjState.gitignore]
    split <;> simp
  · simp only [mkTypeScriptProject]
    simp [apply_ite ProjState.npmignore]
    cases hn : opts.npmignoreEnabled.getD true <;> simp [hn]
    split <;> split <;> simp_all

theorem libdir_ignore_registration_witness :
    (mkTypeScriptProject defaultOptions "yarn run" "yarn").state.npmignore
      = some ((mkTypeScriptProject defaultOptions "yarn run" "yarn").state.npmignore.getD [])
    ∧ (PatternKind.includePat, "/" ++ (mkTypeScriptProject defaultOptions "yarn run" "yarn").libdir)
        ∈ (mkTypeScriptProject defaultOptions "yarn run" "yarn").state.npmignore.getD [] := by
  have hsome : (mkTypeScriptProject defaultOptions "yarn run" "yarn").state.npmignore
      = some ((mkTypeScriptProject defaultOptions "yarn run" "yarn").state.npmignore.getD []) := by
    decide
  exact ⟨hsome, ((libdir_ignore_registration defaultOptions "yarn run" "yarn").2 _ hsome).1⟩

/-- C6: whenever the eslint toggle is enabled, the eslint component is
configured with the tsconfig path chosen by the earlier jest block:
`./tsconfig.jest.json` when jest is enabled, `./tsconfig.json` otherwise. -/
theorem eslint_tsconfig_path_selection (opts : TypeScriptProjectOptions) (rsc pm : String)
    (he : opts.eslint.getD true = true) :
    (mkTypeScriptProject opts rsc pm).eslint
      = some
          { tsconfigPath :=
              if opts.jest.getD true then "./tsconfig.jest.json" else "./tsconfig.json"
            dirs := [opts.srcdir.getD "src", opts.testdir.getD "test"] } := by
  simp only [mkTypeScriptProject]
  cases hj : opts.jest.getD true <;>
    simp [he, hj, TypescriptConfig.make, jestTsconfigOptionsOf]

theorem eslint_tsconfig_path_selection_witness :
    defaultOptions.eslint.getD true = true
    ∧ (mkTypeScriptProject defaultOptions "yarn run" "yarn").eslint
      = some
          { tsconfigPath :=
              if defaultOptions.jest.getD true then "./tsconfig.jest.json" else "./tsconfig.json"
            dirs := ["src", "test"] } := by
  refine ⟨rfl, ?_⟩
  have h := eslint_tsconfig_path_selection defaultOptions "yarn run" "yarn" rfl
  simpa [defaultOptions] using h

/-- C10: every TypescriptConfig construction appends an exclude entry for its
own file to the package-ignore list when that list exists and is a silent
no-op on it otherwise; at project level, with jest enabled, the test-scoped
variant tsconfig.jest.json therefore ends up excluded as well. -/
theorem tsconfig_file_npmignore_exclusion :
    (∀ (o : TypescriptConfigOptions) (st : ProjState) (l : PatternList),
        st.npmignore = some l →
        (TypescriptConfig.applyToProject o st).npmignore
          = some (l ++ [(PatternKind.excludePat, "/" ++ o.fileName.getD "tsconfig.json")]))
    ∧ (∀ (o : TypescriptConfigOptions) (st : ProjState),
        st.npmignore = none → (TypescriptConfig.applyToProject o st).npmignore = none)
    ∧ (∀ (opts : TypeScriptProjectOptions) (rsc pm : String) (l : PatternList),
        opts.jest.getD true = true →
        (mkTypeScriptProject opts rsc pm).state.npmignore = some l →
        (PatternKind.excludePat, "/tsconfig.jest.json") ∈ l) := by
  refine ⟨fun o st l h => by simp [h], fun o st h => by simp [h], fun opts rsc pm l hj => ?_⟩
  simp only [mkTypeScriptProject]
  simp [apply_ite ProjState.npmignore, hj, jestTsconfigOptionsOf]
  cases hn : opts.npmignoreEnabled.getD true <;> simp [hn]
  split <;> (intro x h1 h2; injection h1 with h1; subst h1; subst h2; simp)

theorem tsconfig_file_npmignore_exclusion_witness :
    emptyStateWithNpm.npmignore = some []
    ∧ (TypescriptConfig.applyToProject { compilerOptions := [] } emptyStateWithNpm).npmignore
      = some [(PatternKind.excludePat, "/tsconfig.json")] := by
  refine ⟨rfl, ?_⟩
  have h := tsconfig_file_npmignore_exclusion.1 { compilerOptions := [] } emptyStateWithNpm [] rfl
  simpa using h


/-- C9: the sample-code component writes its sample source only when the
source directory does not exist at all, because the guard tests the
truthiness of the filtered listing, which is truthy even when empty; the
test directory behaves the same way, and its guard's early return skips the
test sample even after the source sample was written. -/
theorem sample_code_guard_behavior (srcN testN outdir : String) (fs : FsState) :
    (∀ l : List String, jsArrayTruthy l = true)
    ∧ (fs.pathExists (jsPathJoin outdir srcN) = true →
        sampleCodeSynthesize srcN testN outdir fs = fs)
    ∧ (fs.pathExists (jsPathJoin outdir srcN) = false →
        fs.pathExists (jsPathJoin outdir testN) = true →
        (sampleCodeSynthesize srcN testN outdir fs).writes
          = fs.writes
            ++ [(jsPathJoin (jsPathJoin outdir srcN) "index.ts",
                 String.intercalate "\n" srcCodeLines)])
    ∧ (fs.pathExists (jsPathJoin outdir srcN) = false →
        fs.pathExists (jsPathJoin outdir testN) = false →
        jsPathJoin outdir testN ≠ jsPathJoin outdir srcN →
        (sampleCodeSynthesize srcN testN outdir fs).writes
          = fs.writes
            ++ [(jsPathJoin (jsPathJoin outdir srcN) "index.ts",
                 String.intercalate "\n" srcCodeLines),
                (jsPathJoin (jsPathJoin outdir testN) "hello.test.ts",
                 String.intercalate "\n" testCodeLines)]) := by
  refine ⟨fun l => rfl, ?_, ?_, ?_⟩
  · intro h
    simp [sampleCodeSynthesize, jsArrayTruthy, h]
  · intro h1 h2
    simp [sampleCodeSynthesize, jsArrayTruthy, FsState.pathExists] at *
    simp [h1, h2]
  · intro h1 h2 hne
    simp [sampleCodeSynthesize, jsArrayTruthy, FsState.pathExists] at *
    simp [h1, h2, hne]

theorem sample_code_guard_behavior_witness :
    fsWithEmptySrcDir.pathExists (jsPathJoin "out" "src") = true
    ∧ sampleCodeSynthesize "src" "test" "out" fsWithEmptySrcDir = fsWithEmptySrcDir :=
  ⟨by decide,
   (sample_code_guard_behavior "src" "test" "out" fsWithEmptySrcDir).2.1 (by decide)⟩

/-- C8: constructing the app-variant preset is the same as constructing the
generic project with the preset defaults (empty entrypoint, packaging
disabled, library dependencies disallowed, release workflow disabled)
shallow-overridden key-by-key by the caller options. -/
theorem app_preset_refinement (opts : TypeScriptProjectOptions) (rsc pm : String) :
    mkTypeScriptAppProject opts rsc pm
      = mkTypeScriptProject (shallowOverrideOptions appPresetDefaults opts) rsc pm := by
  have h : ({ opts with
        allowLibraryDependencies := oOr opts.allowLibraryDependencies (some false)
        releaseWorkflow := oOr opts.releaseWorkflow (some false)
        entrypoint := oOr opts.entrypoint (some "")
        package := oOr opts.package (some false) } : TypeScriptProjectOptions)
      = shallowOverrideOptions appPresetDefaults opts := by
    cases opts
    simp [shallowOverrideOptions, appPresetDefaults]
  unfold mkTypeScriptAppProject
  rw [h]

theorem jest_model_of_mk (opts : TypeScriptProjectOptions) (rsc pm : String)
    (hj : opts.jest.getD true = true) :
    (mkTypeScriptProject opts rsc pm).jest
      = some ⟨TypescriptConfig.make
          (jestTsconfigOptionsOf (opts.srcdir.getD "src") (opts.testdir.getD "test"))⟩ := by
  simp only [mkTypeScriptProject]
  simp [hj]

theorem jest_config_fields (s t : String) :
    (TypescriptConfig.make (jestTsconfigOptionsOf s t)).fileName = "tsconfig.jest.json"
    ∧ (TypescriptConfig.make (jestTsconfigOptionsOf s t)).include_
        = [s ++ "/**/*.ts", t ++ "/**/*.ts"]
    ∧ (TypescriptConfig.make (jestTsconfigOptionsOf s t)).exclude = ["node_modules"]
    ∧ (TypescriptConfig.make (jestTsconfigOptionsOf s t)).compilerOptions.lookup "rootDir" = none
    ∧ (TypescriptConfig.make (jestTsconfigOptionsOf s t)).compilerOptions.lookup "outDir" = none := by
  exact ⟨rfl, rfl, rfl, rfl, rfl⟩

theorem tsconfig_unaffected_by_jest (opts : TypeScriptProjectOptions) (rsc pm : String) :
    (mkTypeScriptProject opts rsc pm).tsconfig
      = (mkTypeScriptProject { opts with jest := some false } rsc pm).tsconfig := by
  simp only [mkTypeScriptProject]

theorem files_extended_by_jest (opts : TypeScriptProjectOptions) (rsc pm : String)
    (hj : opts.jest.getD true = true) :
    (mkTypeScriptProject opts rsc pm).state.files
      = (mkTypeScriptProject { opts with jest := some false } rsc pm).state.files
        ++ [(TypescriptConfig.make
              (jestTsconfigOptionsOf (opts.srcdir.getD "src") (opts.testdir.getD "test"))).file] := by
  simp only [mkTypeScriptProject]
  simp [hj, apply_ite ProjState.files]

/-- C4: with jest enabled a second TypescriptConfig is created with its own
filename, include set and exclude set, its compilerOptions carry no rootDir
or outDir, and its construction leaves the first instance and its emitter
untouched. -/
theorem jest_tsconfig_independent (opts : TypeScriptProjectOptions) (rsc pm : String)
    (hj : opts.jest.getD true = true) :
    (∃ j, (mkTypeScriptProject opts rsc pm).jest = some j
      ∧ j.typescript.fileName = "tsconfig.jest.json"
      ∧ j.typescript.include_
          = [opts.srcdir.getD "src" ++ "/**/*.ts", opts.testdir.getD "test" ++ "/**/*.ts"]
      ∧ j.typescript.exclude = ["node_modules"]
      ∧ j.typescript.compilerOptions.lookup "rootDir" = none
      ∧ j.typescript.compilerOptions.lookup "outDir" = none)
    ∧ (mkTypeScriptProject opts rsc pm).tsconfig
        = (mkTypeScriptProject { opts with jest := some false } rsc pm).tsconfig
    ∧ ∃ obj, (mkTypeScriptProject opts rsc pm).state.files
        = (mkTypeScriptProject { opts with jest := some false } rsc pm).state.files
          ++ [{ path := "tsconfig.jest.json", obj := obj }] := by
  obtain ⟨h1, h2, h3, h4, h5⟩ :=
    jest_config_fields (opts.srcdir.getD "src") (opts.testdir.getD "test")
  refine ⟨⟨_, jest_model_of_mk opts rsc pm hj, h1, h2, h3, h4, h5⟩,
    tsconfig_unaffected_by_jest opts rsc pm, ?_⟩
  refine ⟨(TypescriptConfig.make
      (jestTsconfigOptionsOf (opts.srcdir.getD "src") (opts.testdir.getD "test"))).file.obj, ?_⟩
  rw [files_extended_by_jest opts rsc pm hj]
  simp [TypescriptConfig.make, jestTsconfigOptionsOf]

theorem jest_tsconfig_independent_witness :
    defaultOptions.jest.getD true = true
    ∧ ∃ j, (mkTypeScriptProject defaultOptions "yarn run" "yarn").jest = some j
        ∧ j.typescript.fileName = "tsconfig.jest.json" := by
  refine ⟨rfl, ?_⟩
  obtain ⟨⟨j, hj1, hj2, -⟩, -, -⟩ := jest_tsconfig_independent defaultOptions "yarn run" "yarn" rfl
  exact ⟨j, hj1, hj2⟩

/-- C1, counterexample: with disableTsconfig enabled and every other toggle
at its default, the jest-scoped compiler-configuration file is still
registered, so the set of registered compiler-configuration files is not
empty. -/
theorem disableTsconfig_zero_files_cex :
    (mkTypeScriptProject noTsconfigOptions "yarn run" "yarn").state.files ≠ []
    ∧ (mkTypeScriptProject noTsconfigOptions "yarn run" "yarn").state.files.map JsonFile.path
      = ["tsconfig.jest.json"] :=
  ⟨by decide, by decide⟩

set_option maxHeartbeats 2000000 in
/-- C1, amended: with disableTsconfig enabled the main tsconfig component is
never created and no main tsconfig file is registered; the only registered
compiler-configuration file is the jest-scoped one, present exactly when the
jest toggle is enabled; and a TypescriptConfig construction never sets the
manifest types field. -/
theorem disableTsconfig_amended (opts : TypeScriptProjectOptions) (rsc pm : String)
    (hd : opts.disableTsconfig.getD false = true) :
    (mkTypeScriptProject opts rsc pm).tsconfig = none
    ∧ (mkTypeScriptProject opts rsc pm).state.files
        = (if opts.jest.getD true then
            [(TypescriptConfig.make
                (jestTsconfigOptionsOf (opts.srcdir.getD "src") (opts.testdir.getD "test"))).file]
          else [])
    ∧ (∀ (o : TypescriptConfigOptions) (st : ProjState),
        (TypescriptConfig.applyToProject o st).manifestTypes = st.manifestTypes) := by
  refine ⟨?_, ?_, fun o st => rfl⟩
  · simp only [mkTypeScriptProject]
    simp [hd]
  · cases hj : opts.jest.getD true <;>
      (simp only [mkTypeScriptProject]
       simp [hd, hj, apply_ite ProjState.files])

theorem disableTsconfig_amended_witness :
    noTsconfigOptions.disableTsconfig.getD false = true
    ∧ (mkTypeScriptProject noTsconfigOptions "yarn run" "yarn").tsconfig = none :=
  ⟨rfl, (disableTsconfig_amended noTsconfigOptions "yarn run" "yarn" rfl).1⟩

/-- C2, counterexample: at the all-defaults options, where packaging is
enabled by default, the build script is test, compile, package rather than
exactly test then compile. -/
theorem build_script_exact_list_cex :
    (mkTypeScriptProject defaultOptions "yarn run" "yarn").state.scripts "build"
      ≠ ["yarn run test", "yarn run compile"]
    ∧ (mkTypeScriptProject defaultOptions "yarn run" "yarn").state.scripts "build"
      = ["yarn run test", "yarn run compile", "yarn run package"] :=
  ⟨by decide, by decide⟩

/-- C2, amended: with jest enabled, when compileBeforeTest is false or
absent the build script is the test command then the compile command,
followed by a package command exactly when packaging is enabled (its
default), and the pre-test cleanup command for the compiled-output directory
is registered on the test script; when compileBeforeTest is true the build
script is compile then test, again followed by the package command when
packaging is enabled, and no cleanup command is registered. -/
theorem build_and_test_scripts_amended (opts : TypeScriptProjectOptions) (rsc pm : String)
    (hj : opts.jest.getD true = true) :
    (opts.compileBeforeTest.getD false = false →
        (mkTypeScriptProject opts rsc pm).state.scripts "build"
          = [rsc ++ " test", rsc ++ " compile"]
            ++ (if opts.package.getD true then [rsc ++ " package"] else [])
        ∧ ("rm -fr " ++ opts.libdir.getD "lib" ++ "/")
            ∈ (mkTypeScriptProject opts rsc pm).state.scripts "test")
    ∧ (opts.compileBeforeTest.getD false = true →
        (mkTypeScriptProject opts rsc pm).state.scripts "build"
          = [rsc ++ " compile", rsc ++ " test"]
            ++ (if opts.package.getD true then [rsc ++ " package"] else [])
        ∧ ("rm -fr " ++ opts.libdir.getD "lib" ++ "/")
            ∉ (mkTypeScriptProject opts rsc pm).state.scripts "test") := by
  constructor <;> intro hc <;>
    (simp only [mkTypeScriptProject]
     cases hp : opts.package.getD true <;>
       simp [hj, hc, hp, apply_ite ProjState.scripts])

theorem build_and_test_scripts_amended_witness :
    defaultOptions.jest.getD true = true
    ∧ defaultOptions.compileBeforeTest.getD false = false
    ∧ (mkTypeScriptProject defaultOptions "yarn run" "yarn").state.scripts "build"
      = ["yarn run test", "yarn run compile"]
        ++ (if defaultOptions.package.getD true then ["yarn run package"] else [])
    ∧ ("rm -fr " ++ defaultOptions.libdir.getD "lib" ++ "/")
      ∈ (mkTypeScriptProject defaultOptions "yarn run" "yarn").state.scripts "test" := by
  have h := (build_and_test_scripts_amended defaultOptions "yarn run" "yarn" rfl).1 rfl
  exact ⟨rfl, rfl, h.1, h.2⟩

/-- C3, counterexample: when the caller supplies a tsconfig override whose
compilerOptions bag holds only allowJs, the resulting compilerOptions are
that bag alone, not the key-by-key layered merge the claim describes: the
hard-coded default alwaysStrict is gone from the result while the layered
merge keeps it. -/
theorem caller_compilerOptions_replace_cex :
    (mkTypeScriptProject allowJsOptions "yarn run" "yarn").tsconfig.map
        TypescriptConfig.compilerOptions
      ≠ some (claimLayeredCompilerOptions "src" "lib" allowJsOptions.tsconfig)
    ∧ (mkTypeScriptProject allowJsOptions "yarn run" "yarn").tsconfig.map
        (fun c => c.compilerOptions.lookup "alwaysStrict") = some none
    ∧ (claimLayeredCompilerOptions "src" "lib" allowJsOptions.tsconfig).lookup "alwaysStrict"
      = some (TsValue.bool true) :=
  ⟨by decide, by decide, by decide⟩

/-- C3, amended: the spread operation does merge key-by-key with the later
layer winning, and the main tsconfig's compilerOptions are the hard-coded
defaults spread over the computed rootDir and outDir when the caller
supplies no tsconfig override; a caller-supplied override contributes its
compilerOptions wholesale, replacing the default and computed set rather
than merging with it key by key. -/
theorem compilerOptions_merge_amended (opts : TypeScriptProjectOptions) (rsc pm : String)
    (hd : opts.disableTsconfig.getD false = false) :
    (∀ (a b : ObjMap) (k : String), (spread a b).lookup k = oOr (b.lookup k) (a.lookup k))
    ∧ ∃ cfg, (mkTypeScriptProject opts rsc pm).tsconfig = some cfg
        ∧ cfg.compilerOptions
          = (match opts.tsconfig with
             | none =>
               spread [("rootDir", TsValue.str (opts.srcdir.getD "src")),
                       ("outDir", TsValue.str (opts.libdir.getD "lib"))] defaultCompilerOptions
             | some t => t.compilerOptions) := by
  refine ⟨spread_lookup, ?_⟩
  simp only [mkTypeScriptProject]
  simp [hd]
  cases ht : opts.tsconfig with
  | none => simp [TypescriptConfig.make]
  | some t => simp [TypescriptConfig.make, spreadConfigOptions]

theorem compilerOptions_merge_amended_witness :
    defaultOptions.disableTsconfig.getD false = false
    ∧ ∃ cfg, (mkTypeScriptProject defaultOptions "yarn run" "yarn").tsconfig = some cfg
        ∧ cfg.compilerOptions
          = spread [("rootDir", TsValue.str "src"), ("outDir", TsValue.str "lib")]
              defaultCompilerOptions := by
  refine ⟨rfl, ?_⟩
  obtain ⟨cfg, hc, he⟩ := (compilerOptions_merge_amended defaultOptions "yarn run" "yarn" rfl).2
  exact ⟨cfg, hc, he⟩

/-- C7, counterexample: a caller-supplied empty-string entrypointTypes
together with an empty entrypoint leaves the manifest types unset even
though the caller did supply entrypointTypes, because the guard tests
JavaScript truthiness and the empty string is falsy. -/
theorem manifest_types_iff_cex :
    ¬((mkTypeScriptProject emptyTypesOptions "yarn run" "yarn").state.manifestTypes.isSome = true
      ↔ (emptyTypesOptions.entrypointTypes.isSome = true
          ∨ (mkTypeScriptProject emptyTypesOptions "yarn run" "yarn").entrypoint ≠ "")) := by
  decide

set_option maxHeartbeats 4000000 in
/-- C7, amended: the manifest types field is set exactly when the caller
supplies a non-empty entrypointTypes or the resolved entrypoint is
non-empty; a supplied non-empty entrypointTypes is used verbatim; without
entrypointTypes, an entrypoint of the form dir/base.js yields
dir/base.d.ts, the basename's .js extension replaced by .d.ts. -/
theorem manifest_types_amended (opts : TypeScriptProjectOptions) (rsc pm d b : String)
    (hd1 : d ≠ "") (hd2 : d ≠ ".") (hb : b ≠ "")
    (hslash : '/' ∉ b.data) (hbs1 : '\\' ∉ d.data) (hbs2 : '\\' ∉ b.data) :
    ((mkTypeScriptProject opts rsc pm).state.manifestTypes.isSome
      = (jsTruthyStrOpt opts.entrypointTypes || (opts.entrypoint.getD "lib/index.js" != "")))
    ∧ (∀ s, opts.entrypointTypes = some s → s ≠ "" →
        (mkTypeScriptProject opts rsc pm).state.manifestTypes = some s)
    ∧ (opts.entrypointTypes = none →
        opts.entrypoint = some (d ++ "/" ++ b ++ ".js") →
        (mkTypeScriptProject opts rsc pm).state.manifestTypes
          = some (d ++ "/" ++ b ++ ".d.ts")) := by
  refine ⟨?_, ?_, ?_⟩
  · simp only [mkTypeScriptProject]
    cases hc : jsTruthyStrOpt opts.entrypointTypes || (opts.entrypoint.getD "lib/index.js" != "") <;>
      simp [hc, apply_ite ProjState.manifestTypes]
  · intro s hs hne
    have ht : jsTruthyStrOpt (some s) = true := by
      simp [jsTruthyStrOpt, hne]
    simp only [mkTypeScriptProject]
    simp [ht, hs, apply_ite ProjState.manifestTypes]
  · intro hnone hent
    have hne : (d ++ "/" ++ b ++ ".js") ≠ "" := by
      intro h
      have := congrArg String.data h
      simp [String.data_append] at this
    simp only [mkTypeScriptProject]
    simp [hnone, hent, jsTruthyStrOpt, hne, apply_ite ProjState.manifestTypes]
    exact deriveEntrypointTypes_spec d b hd1 hd2 hb hslash hbs1 hbs2

theorem manifest_types_amended_witness :
    ("lib" : String) ≠ "" ∧ ("index" : String) ≠ ""
    ∧ (mkTypeScriptProject explicitEntrypointOptions "yarn run" "yarn").state.manifestTypes
      = some ("lib" ++ "/" ++ "index" ++ ".d.ts") := by
  refine ⟨by decide, by decide, ?_⟩
  have h := (manifest_types_amended explicitEntrypointOptions "yarn run" "yarn" "lib" "index"
    (by decide) (by decide) (by decide) (by decide) (by decide) (by decide)).2.2
  exact h rfl (by decide)

end Projen
